import Mathlib

/-!
Verification of the NeoPayphone control program (NeoPhone5.ino).

The program is shallowly embedded: each C++ function that the claims
depend on is translated into a Lean function.  Hardware reads (hook
switch, keyfob pins, keypad, the sound module's ACT line and the result
of `sfx.playTrack`) are passed in as explicit oracle arguments; the
mutable globals (`currentState`, the LCD line contents, the
`audioFiles` table) are threaded through a `SysState` record; commands
sent to the AudioFX sound module (`sfx.playTrack`, `sfx.stop`,
`delay(..)`) are recorded as an explicit event trace so that
command-spacing properties can be stated.
-/

/-- The `PhoneState` enum of the sketch. -/
inductive PhoneState where
  | STATE_IDLE
  | STATE_DIAL_TONE
  | STATE_KEYPAD_ENTRY
  | STATE_CONNECTING
  | STATE_INCOMING_CALL
  | STATE_RESET
deriving DecidableEq

/-- One audio-channel action: a `sfx.playTrack(n)` command, a
`sfx.stop()` command, or a `delay(ms)` pause between commands. -/
inductive SndEvt where
  | play (trackNum : Nat)
  | stop
  | delay (ms : Nat)
deriving DecidableEq

/-- `struct AudioFile { long fileID; uint8_t trackNum; }`. -/
structure AudioFile where
  fileID : Int
  trackNum : Nat
deriving DecidableEq

/-- The mutable globals the claims are about: the state-machine phase
`currentState`, the two 16-character LCD lines, and the
`audioFiles[]` lookup table together with `totalFiles` (represented as
a list whose length is `totalFiles`). -/
structure SysState where
  currentState : PhoneState
  displayTop : String
  displayBottom : String
  audioFiles : List AudioFile
deriving DecidableEq

/-- Value of a decimal digit string, as `strtol(numStr, .., 10)`
computes it on an all-digit string. -/
def digitsVal (l : List Char) : Nat :=
  l.foldl (fun a c => 10 * a + (c.toNat - 48)) 0

/-- `convertFilenameToInt`: skip the non-digit prefix, take up to five
characters that are digits and not the extension separator, require at
least one digit, convert with `strtol` and range-check the result
(`num < 0 || num > 99999` yields `-1`). -/
def convertFilenameToInt (filename : List Char) : Int :=
  let rest := filename.dropWhile (fun c => !c.isDigit)
  let numStr := (rest.takeWhile (fun c => !(c = '.' : Bool) && c.isDigit)).take 5
  if numStr.length = 0 then -1
  else
    let num : Int := (digitsVal numStr : Int)
    if num < 0 ∨ 99999 < num then -1 else num

/-- The first maximal digit run of a filename: the digits reached after
skipping the leading non-digit characters. -/
def firstDigitRun (filename : List Char) : List Char :=
  (filename.dropWhile (fun c => !c.isDigit)).takeWhile (fun c => c.isDigit)

lemma sepPred_eq :
    (fun c : Char => !(c = '.' : Bool) && c.isDigit) = (fun c : Char => c.isDigit) := by
  funext c
  by_cases hc : c = '.'
  · subst hc; decide
  · simp [hc]

lemma takeWhile_sep_eq (l : List Char) :
    l.takeWhile (fun c => !(c = '.' : Bool) && c.isDigit)
      = l.takeWhile (fun c => c.isDigit) := by
  rw [sepPred_eq]

lemma mem_takeWhile_digit (l : List Char) (c : Char)
    (h : c ∈ l.takeWhile (fun c => c.isDigit)) : c.isDigit = true :=
  List.mem_takeWhile_imp h

lemma isDigit_sub_le {c : Char} (hc : c.isDigit = true) : c.toNat - 48 ≤ 9 := by
  have h : 48 ≤ c.val ∧ c.val ≤ 57 := by simpa [Char.isDigit] using hc
  have h2 : c.val.toNat ≤ 57 := UInt32.toNat_le_of_le (by norm_num [UInt32.size]) h.2
  have h3 : c.toNat = c.val.toNat := rfl
  omega

lemma digitsVal_foldl_bound (l : List Char) (a : Nat)
    (h : ∀ c ∈ l, c.isDigit = true) :
    l.foldl (fun a c => 10 * a + (c.toNat - 48)) a < (a + 1) * 10 ^ l.length := by
  induction l generalizing a with
  | nil => simpa using Nat.lt_succ_self a
  | cons c t ih =>
    have hc : c.isDigit = true := h c (List.mem_cons_self c t)
    have hd : c.toNat - 48 ≤ 9 := isDigit_sub_le hc
    have ht : ∀ x ∈ t, x.isDigit = true := fun x hx => h x (List.mem_cons_of_mem c hx)
    have step := ih (10 * a + (c.toNat - 48)) ht
    have hle : (10 * a + (c.toNat - 48) + 1) * 10 ^ t.length ≤ (a + 1) * 10 ^ (t.length + 1) := by
      have h1 : 10 * a + (c.toNat - 48) + 1 ≤ 10 * (a + 1) := by omega
      calc (10 * a + (c.toNat - 48) + 1) * 10 ^ t.length
          ≤ 10 * (a + 1) * 10 ^ t.length := Nat.mul_le_mul_right _ h1
        _ = (a + 1) * 10 ^ (t.length + 1) := by ring
    simpa [List.foldl_cons, List.length_cons] using lt_of_lt_of_le step hle

lemma digitsVal_run_le (f : List Char) :
    digitsVal ((firstDigitRun f).take 5) ≤ 99999 := by
  have hmem : ∀ c ∈ (firstDigitRun f).take 5, c.isDigit = true := by
    intro c hc
    exact mem_takeWhile_digit _ c (List.take_subset 5 _ hc)
  have hlen : ((firstDigitRun f).take 5).length ≤ 5 := by
    simpa using List.length_take_le 5 (firstDigitRun f)
  have hb := digitsVal_foldl_bound ((firstDigitRun f).take 5) 0 hmem
  have hpow : (10 : Nat) ^ ((firstDigitRun f).take 5).length ≤ 10 ^ 5 :=
    Nat.pow_le_pow_right (by omega) hlen
  have : digitsVal ((firstDigitRun f).take 5) < 10 ^ 5 := by
    calc digitsVal ((firstDigitRun f).take 5)
        < (0 + 1) * 10 ^ ((firstDigitRun f).take 5).length := hb
      _ = 10 ^ ((firstDigitRun f).take 5).length := by ring
      _ ≤ 10 ^ 5 := hpow
  omega

/-- Modelled from the spec: the extraction property of §8 as the claim
states it — a filename whose (first) digit run has length at most 5 and
value at most 99999 extracts to exactly that value, and every other
filename extracts to the invalid result `-1`. -/
def specExtractionProperty : Prop :=
  ∀ f : List Char,
    ((firstDigitRun f ≠ [] ∧ (firstDigitRun f).length ≤ 5 ∧
        digitsVal (firstDigitRun f) ≤ 99999) →
      convertFilenameToInt f = (digitsVal (firstDigitRun f) : Int)) ∧
    (¬ (firstDigitRun f ≠ [] ∧ (firstDigitRun f).length ≤ 5 ∧
        digitsVal (firstDigitRun f) ≤ 99999) →
      convertFilenameToInt f = -1)

/-- C1 counterexample: on `"123456.OGG"` the digit run has length 6, so
the claim as stated demands the invalid result `-1`; the code instead
truncates to the first five digits and returns `12345`. -/
theorem C1_counterexample_extraction : ¬ specExtractionProperty := by
  intro h
  have h2 := (h ("123456.OGG".toList)).2 (by decide)
  exact absurd h2 (by decide)

/-- C1 (amended): extraction returns `-1` exactly when the filename
contains no digit; otherwise it returns the value of the first **up to
five** digits of the first digit run (so a run longer than five digits
is truncated, not rejected), and that value always lies in `0..99999`,
making the code's range check vacuous. -/
theorem C1_extraction_first_run (f : List Char) :
    convertFilenameToInt f =
      (if firstDigitRun f = [] then (-1 : Int)
       else (digitsVal ((firstDigitRun f).take 5) : Int)) ∧
    digitsVal ((firstDigitRun f).take 5) ≤ 99999 := by
  refine ⟨?_, digitsVal_run_le f⟩
  have hconv : convertFilenameToInt f =
      (if ((firstDigitRun f).take 5).length = 0 then (-1 : Int)
       else if (digitsVal ((firstDigitRun f).take 5) : Int) < 0 ∨
              (99999 : Int) < (digitsVal ((firstDigitRun f).take 5) : Int) then -1
       else (digitsVal ((firstDigitRun f).take 5) : Int)) := by
    simp only [convertFilenameToInt, firstDigitRun, takeWhile_sep_eq]
  rw [hconv]
  by_cases h0 : firstDigitRun f = []
  · simp [h0]
  · have hlen : ¬ ((firstDigitRun f).take 5).length = 0 := by
      rcases hr : firstDigitRun f with _ | ⟨a, t⟩
      · exact absurd hr h0
      · simp
    have hle : digitsVal ((firstDigitRun f).take 5) ≤ 99999 := digitsVal_run_le f
    have hnotbig : ¬ ((digitsVal ((firstDigitRun f).take 5) : Int) < 0 ∨
        (99999 : Int) < (digitsVal ((firstDigitRun f).take 5) : Int)) := by
      push_neg
      constructor
      · exact Int.ofNat_nonneg _
      · exact_mod_cast hle
    simp [hlen, h0, hnotbig, hle]

/-- The file loop of `scanAudioFXStorageNew`: walk the module's listing
with listing index `f` and table fill `total`; stop once the table
holds `MAX_TRACKS = 30` entries; skip filenames converting to `-1`;
otherwise append `{fileID, trackNum = f}`. -/
def scanFiles : Nat → Nat → List (List Char) → List AudioFile
  | _, _, [] => []
  | f, total, name :: rest =>
    if 30 ≤ total then []
    else if convertFilenameToInt name = -1 then scanFiles (f + 1) total rest
    else ⟨convertFilenameToInt name, f⟩ :: scanFiles (f + 1) (total + 1) rest

/-- The search loop of `findTrackNumberByFilename`: linear scan of
`audioFiles`, first match wins. -/
def lookupSlot : List AudioFile → Int → Option Nat
  | [], _ => none
  | e :: rest, tid => if e.fileID = tid then some e.trackNum else lookupSlot rest tid

/-- `findTrackNumberByFilename`: return the first matching entry's
track number; on a miss, display `"<id>.OGG" / "Number Not Found"`,
force `currentState = STATE_RESET` and return the 255 sentinel. -/
def findTrackNumberByFilename (st : SysState) (trackID : Int) : SysState × Nat :=
  match lookupSlot st.audioFiles trackID with
  | some slot => (st, slot)
  | none =>
    ({ st with displayTop := "    " ++ toString trackID ++ ".OGG",
               displayBottom := "Number Not Found",
               currentState := .STATE_RESET }, 255)

/-- `scanAudioFXStorageNew`: an empty listing displays
`"Error: " / "No Sound Files!"` and forces `STATE_RESET` without
touching the table; otherwise the table is rebuilt by `scanFiles`. -/
def scanAudioFXStorageNew (st : SysState) (listing : List (List Char)) : SysState :=
  if listing.length = 0 then
    { st with displayTop := "Error: ", displayBottom := "No Sound Files!",
              currentState := .STATE_RESET }
  else
    { st with audioFiles := scanFiles 0 0 listing }

/-- Index of the first filename in a listing that converts to a given
id. -/
def firstOcc : List (List Char) → Int → Option Nat
  | [], _ => none
  | name :: rest, tid =>
    if convertFilenameToInt name = tid then some 0
    else (firstOcc rest tid).map (· + 1)

/-- How many filenames strictly before index `k` convert to a valid id
(these are the ones that consume table capacity). -/
def validBefore (listing : List (List Char)) (k : Nat) : Nat :=
  ((listing.take k).filter (fun n => !(convertFilenameToInt n = -1 : Bool))).length

lemma lookup_scanFiles_firstOcc (listing : List (List Char)) :
    ∀ (tid : Int) (k f total : Nat), tid ≠ -1 → firstOcc listing tid = some k →
      total + validBefore listing k < 30 →
      lookupSlot (scanFiles f total listing) tid = some (f + k) := by
  induction listing with
  | nil =>
    intro tid k f total _ hocc _
    simp [firstOcc] at hocc
  | cons name rest ih =>
    intro tid k f total hne hocc hcap
    by_cases hid : convertFilenameToInt name = tid
    · have hk : k = 0 := by
        simp [firstOcc, hid] at hocc
        omega
      subst hk
      have hnotinv : ¬ convertFilenameToInt name = -1 := by rw [hid]; exact hne
      have hnot30 : ¬ 30 ≤ total := by
        simp [validBefore] at hcap
        omega
      simp [scanFiles, hnot30, hnotinv, lookupSlot, hid, hne]
    · have hocc' : ∃ k', firstOcc rest tid = some k' ∧ k = k' + 1 := by
        simp only [firstOcc, hid, if_neg] at hocc
        cases hr : firstOcc rest tid with
        | none => rw [hr] at hocc; simp at hocc
        | some k' =>
          rw [hr] at hocc
          simp at hocc
          exact ⟨k', rfl, hocc.symm⟩
      obtain ⟨k', hr, hk⟩ := hocc'
      subst hk
      by_cases hinv : convertFilenameToInt name = -1
      · have hcap' : total + validBefore rest k' < 30 := by
          simp [validBefore, List.take_succ_cons, hinv] at hcap ⊢
          omega
        have hnot30 : ¬ 30 ≤ total := by omega
        have hih := ih tid k' (f + 1) total hne hr hcap'
        rw [scanFiles]
        simp only [hnot30, if_neg, if_pos, hinv, if_true, reduceIte]
        rw [hih]
        congr 1
        omega
      · have hcap' : (total + 1) + validBefore rest k' < 30 := by
          simp [validBefore, List.take_succ_cons, hinv] at hcap ⊢
          omega
        have hnot30 : ¬ 30 ≤ total := by omega
        have hih := ih tid k' (f + 1) (total + 1) hne hr hcap'
        rw [scanFiles]
        simp only [hnot30, hinv, reduceIte]
        rw [lookupSlot]
        simp only [hid, reduceIte]
        rw [hih]
        congr 1
        omega

/-- C2: after the boot-time directory build, looking up any id that
occurs in the listing (its first occurrence landing within the 30-entry
capacity) returns the listing slot of the *first* occurrence of that
id: entries are appended in listing order without deduplication and the
lookup is a first-match linear scan. -/
theorem C2_lookup_first_listed (listing : List (List Char)) (tid : Int) (k : Nat)
    (hne : tid ≠ -1) (hocc : firstOcc listing tid = some k)
    (hcap : validBefore listing k < 30) :
    lookupSlot (scanFiles 0 0 listing) tid = some k := by
  have h := lookup_scanFiles_firstOcc listing tid k 0 0 hne hocc (by simpa using hcap)
  simpa using h

/-- A concrete boot listing containing the four system sounds and a
duplicated outbound id `11`. -/
def dupListing : List (List Char) :=
  ["1.WAV", "2.WAV", "3.OGG", "4.OGG", "11.OGG", "12345.OGG", "11.OGG"].map String.toList

theorem C2_lookup_first_listed_witness :
    (11 : Int) ≠ -1 ∧ firstOcc dupListing 11 = some 4 ∧ validBefore dupListing 4 < 30 ∧
      lookupSlot (scanFiles 0 0 dupListing) 11 = some 4 :=
  ⟨by decide, by decide, by decide,
    C2_lookup_first_listed dupListing 11 4 (by decide) (by decide) (by decide)⟩

/-- The state of the globals when `setup()` runs: `STATE_IDLE`, no
files loaded. -/
def bootState : SysState :=
  { currentState := .STATE_IDLE, displayTop := "", displayBottom := "",
    audioFiles := [] }

/-- C5: when the module lists zero files, the directory build leaves
zero entries, shows the error on the display and forces `STATE_RESET`;
with an empty directory every later lookup misses (returns the 255
sentinel), so no audio can ever be resolved in the session — the scan
is run only from `setup()`, so there is no retry. -/
theorem C5_empty_listing_fatal :
    (scanAudioFXStorageNew bootState []).audioFiles = [] ∧
    (scanAudioFXStorageNew bootState []).displayTop = "Error: " ∧
    (scanAudioFXStorageNew bootState []).displayBottom = "No Sound Files!" ∧
    (scanAudioFXStorageNew bootState []).currentState = .STATE_RESET ∧
    ∀ tid : Int, (findTrackNumberByFilename (scanAudioFXStorageNew bootState []) tid).2 = 255 := by
  refine ⟨rfl, rfl, rfl, rfl, fun tid => ?_⟩
  simp [findTrackNumberByFilename, scanAudioFXStorageNew, bootState, lookupSlot]

/-- `triggerSoundUART`: issues `sfx.playTrack(trackNum)` (the
`trackNum >= 0` guard always holds for an unsigned argument).  The
module's reply is the `playOk` oracle; a `false` reply is only logged
under `DEBUG` — the state is not touched, there is no retry and no
reset. -/
def triggerSoundUART (st : SysState) (trackNum : Nat) (playOk : Bool) :
    SysState × List SndEvt :=
  (st, [SndEvt.play trackNum])

/-- The `STATE_DIAL_TONE` case of `loop()`: look up the dial tone (file
id 1), trigger it, wait `sfxDelay = 400`, and unconditionally move to
`STATE_KEYPAD_ENTRY`. -/
def dialToneStep (st : SysState) (playOk : Bool) : SysState × List SndEvt :=
  let p := findTrackNumberByFilename st 1
  let q := triggerSoundUART p.1 p.2 playOk
  ({ q.1 with currentState := .STATE_KEYPAD_ENTRY }, q.2 ++ [SndEvt.delay 400])

/-- C10: every lookup miss — whoever the caller is, including the
machine's own system-sound lookups — not only returns the 255 sentinel
but overwrites `currentState` with `STATE_RESET` and the display with
the Number Not Found message; and a caller that assigns the phase
afterwards (here the dial-tone state, which moves on to keypad entry)
silently overwrites that forced reset. -/
theorem C10_lookup_miss_frame_effect (st : SysState) (tid : Int) (playOk : Bool)
    (h : lookupSlot st.audioFiles tid = none) :
    findTrackNumberByFilename st tid =
      ({ st with displayTop := "    " ++ toString tid ++ ".OGG",
                 displayBottom := "Number Not Found",
                 currentState := .STATE_RESET }, 255) ∧
    (lookupSlot st.audioFiles 1 = none →
      (dialToneStep st playOk).1.currentState = .STATE_KEYPAD_ENTRY ∧
      (dialToneStep st playOk).1.displayBottom = "Number Not Found") := by
  constructor
  · simp [findTrackNumberByFilename, h]
  · intro h1
    simp [dialToneStep, findTrackNumberByFilename, h1, triggerSoundUART]

theorem C10_lookup_miss_frame_effect_witness :
    lookupSlot bootState.audioFiles 7 = none ∧
    (findTrackNumberByFilename bootState 7 =
      ({ bootState with displayTop := "    " ++ toString (7 : Int) ++ ".OGG",
                        displayBottom := "Number Not Found",
                        currentState := .STATE_RESET }, 255) ∧
     (lookupSlot bootState.audioFiles 1 = none →
       (dialToneStep bootState true).1.currentState = .STATE_KEYPAD_ENTRY ∧
       (dialToneStep bootState true).1.displayBottom = "Number Not Found")) :=
  ⟨by decide, C10_lookup_miss_frame_effect bootState 7 true (by decide)⟩

/-- The `keyfobButtons[]` number column: A=1, B=2, C=3, D=4. -/
def fobNumber : Fin 4 → Nat
  | 0 => 1
  | 1 => 2
  | 2 => 3
  | 3 => 4

/-- The `keyfobButtons[]` letter column. -/
def fobLetter : Fin 4 → Char
  | 0 => 'A'
  | 1 => 'B'
  | 2 => 'C'
  | 3 => 'D'

/-- `ProcessIncomingKeyFob`: display the first button's letter; after
the blocking release wait and the bounded 5-second second-press window
(abstracted as the optional `second` argument), either return 255 when
no second press arrived, or display the second letter, combine
`firstDigit * 10 + secondDigit` and resolve it through
`findTrackNumberByFilename`. -/
def ProcessIncomingKeyFob (st : SysState) (first : Fin 4) (second : Option (Fin 4)) :
    SysState × Nat :=
  let st0 := { st with displayBottom := String.mk [fobLetter first] }
  match second with
  | none => (st0, 255)
  | some s =>
    let st1 := { st0 with displayBottom := String.mk [fobLetter first, fobLetter s] }
    findTrackNumberByFilename st1 ((fobNumber first : Int) * 10 + (fobNumber s : Int))

/-- The `STATE_IDLE` case of `loop()` (screensaver handling elided):
off-hook moves to `STATE_DIAL_TONE`; otherwise a detected keyfob press
is resolved via `ProcessIncomingKeyFob` and only a result `< 255`
enters `STATE_INCOMING_CALL`.  Returns the updated state and the
`trackNum` static (255 when nothing valid was assigned). -/
def idleStep (st : SysState) (hookOff : Bool) (fob : Option (Fin 4 × Option (Fin 4))) :
    SysState × Nat :=
  if hookOff then ({ st with currentState := .STATE_DIAL_TONE }, 255)
  else
    match fob with
    | none => (st, 255)
    | some (first, second) =>
      let r := ProcessIncomingKeyFob st first second
      if r.2 < 255 then
        ({ r.1 with displayTop := " Incoming Call", displayBottom := "   Answer Me!",
                    currentState := .STATE_INCOMING_CALL }, r.2)
      else (r.1, r.2)

/-- The `STATE_RESET` case of `loop()`: stop audio, busy-wait until the
handset is on-hook (elided: the step is taken once it is down), clear
the `trackNum` static, reset the module, and return to `STATE_IDLE`. -/
def resetStep (st : SysState) : SysState × List SndEvt :=
  ({ st with currentState := .STATE_IDLE }, [SndEvt.stop])

/-- Modelled from the spec: the C3 claim — in Idle, a captured two-press
remote code whose composite id has no Track Directory entry leaves the
machine in `STATE_IDLE` (rather than moving to `STATE_RESET`). -/
def specIdleUnknownCodeStaysIdle : Prop :=
  ∀ (st : SysState) (first s : Fin 4),
    st.currentState = .STATE_IDLE →
    lookupSlot st.audioFiles ((fobNumber first : Int) * 10 + (fobNumber s : Int)) = none →
    (idleStep st false (some (first, some s))).1.currentState = .STATE_IDLE

/-- The idle boot display with only the four system-sound files
loaded (ids 1,2,3,4 at slots 0..3): no two-press code 11..44 is in the
directory. -/
def sysOnlyState : SysState :=
  { currentState := .STATE_IDLE, displayTop := "Neo Coms Network",
    displayBottom := "  Lift Handset",
    audioFiles := scanFiles 0 0 (["1.WAV", "2.WAV", "3.OGG", "4.OGG"].map String.toList) }

/-- C3 counterexample: pressing A then B (composite id 12) with no file
`12` in the directory does not leave the machine in `STATE_IDLE` — the
failed lookup inside `findTrackNumberByFilename` has already forced
`currentState = STATE_RESET`, and the Idle handler never undoes it. -/
theorem C3_counterexample_unknown_code : ¬ specIdleUnknownCodeStaysIdle := by
  intro h
  have h12 := h sysOnlyState 0 1 (by decide) (by decide)
  exact absurd h12 (by decide)

/-- C3 (amended): in Idle with the handset down, a two-press code whose
composite id is not in the directory does not enter
`STATE_INCOMING_CALL`: the failed lookup itself forces `STATE_RESET`
(with the Number Not Found display), the returned track is the 255
sentinel, and the following reset step brings the machine back to
`STATE_IDLE` — Idle is reached again via Resetting, not by remaining in
Idle. -/
theorem C3_unknown_code_resets (st : SysState) (first s : Fin 4)
    (h : lookupSlot st.audioFiles ((fobNumber first : Int) * 10 + (fobNumber s : Int)) = none) :
    (idleStep st false (some (first, some s))).1.currentState = .STATE_RESET ∧
    (idleStep st false (some (first, some s))).2 = 255 ∧
    (resetStep (idleStep st false (some (first, some s))).1).1.currentState = .STATE_IDLE := by
  simp [idleStep, ProcessIncomingKeyFob, findTrackNumberByFilename, h, resetStep]

theorem C3_unknown_code_resets_witness :
    lookupSlot sysOnlyState.audioFiles ((fobNumber 0 : Int) * 10 + (fobNumber 1 : Int)) = none ∧
    ((idleStep sysOnlyState false (some (0, some 1))).1.currentState = .STATE_RESET ∧
     (idleStep sysOnlyState false (some (0, some 1))).2 = 255 ∧
     (resetStep (idleStep sysOnlyState false (some (0, some 1))).1).1.currentState = .STATE_IDLE) :=
  ⟨by decide, C3_unknown_code_resets sysOnlyState 0 1 (by decide)⟩

/-- Outcome of the digit-collection loop of `GetKeyPadNumber`:
`completed` with the phone buffer, the LCD number buffer and the trace;
`hungup` when a poll read the hook on-hook; `starved` when the poll
oracle ran out before five digits (the real loop would keep polling). -/
inductive CollectOutcome where
  | completed (phone disp : List Char) (ev : List SndEvt)
  | hungup (ev : List SndEvt)
  | starved (phone disp : List Char) (ev : List SndEvt)
deriving DecidableEq

/-- The `while (KeyPadCount < 5)` loop of `GetKeyPadNumber`.  A poll is
a pair (hook reading: true = off-hook, optional keypad key).  On the
first key of any kind the dial tone is stopped (`sfx.stop()`, with the
settle delay commented out in the source); a digit key plays the click
`triggerSoundUART(clickIdx)` and is stored; `#` clears both buffers;
`*` fills the buffer with "11111" and completes; display cells follow
`KeyPadCount + (KeyPadCount > 1 ? 1 : 0)`. -/
def collectKeys (clickIdx : Nat) (phone disp : List Char) (count : Nat)
    (firstKeyPressed : Bool) (ev : List SndEvt) :
    List (Bool × Option Char) → CollectOutcome
  | [] => if 5 ≤ count then .completed phone disp ev else .starved phone disp ev
  | (hookOff, k) :: rest =>
    if 5 ≤ count then .completed phone disp ev
    else if !hookOff then .hungup ev
    else
      match k with
      | none => collectKeys clickIdx phone disp count firstKeyPressed ev rest
      | some key =>
        let ev1 := if firstKeyPressed then ev else ev ++ [SndEvt.stop]
        if key.isDigit then
          collectKeys clickIdx (phone.set count key)
            (disp.set (count + (if 1 < count then 1 else 0)) key) (count + 1) true
            (ev1 ++ [SndEvt.play clickIdx]) rest
        else if key = '#' then
          collectKeys clickIdx (List.replicate 5 ' ') (List.replicate 6 ' ') 0 true ev1 rest
        else if key = '*' then
          collectKeys clickIdx "11111".toList "11-111".toList 5 true ev1 rest
        else collectKeys clickIdx phone disp count true ev1 rest

/-- The invalid-number wait loop of `GetKeyPadNumber`: while off-hook,
whenever playback has stopped, re-look-up and re-trigger the
call-finished jingle (file id 4), with a 5 ms pause per iteration. -/
def invalidWait (st : SysState) : List (Bool × Bool) → SysState × List SndEvt
  | [] => (st, [])
  | (hookOff, playing) :: rest =>
    if hookOff then
      if playing then
        let r := invalidWait st rest
        (r.1, SndEvt.delay 5 :: r.2)
      else
        let p := findTrackNumberByFilename st 4
        let r := invalidWait p.1 rest
        (r.1, SndEvt.play p.2 :: SndEvt.delay 5 :: r.2)
    else (st, [])

/-- The tail of `GetKeyPadNumber` once five digits are collected:
`delay(sfxDelay)`, convert the buffer, resolve it; on a miss run the
invalid-number path (stop, jingle, error display, `invalidWait`, force
`STATE_RESET`, return 255); on a hit `delay(sfxDelay)` and issue
`sfx.playTrack` directly — a `false` reply (`playOk`) forces
`STATE_RESET` and returns 255, a `true` reply returns the slot. -/
def finishEntry (st : SysState) (phone : List Char) (playOk : Bool)
    (waitPolls : List (Bool × Bool)) : SysState × Nat × List SndEvt :=
  let p := findTrackNumberByFilename st (convertFilenameToInt phone)
  if p.2 = 255 then
    let q := findTrackNumberByFilename p.1 4
    let st3 := { q.1 with displayTop := " Invalid Number",
                          displayBottom := "Replace Handset" }
    let r := invalidWait st3 waitPolls
    ({ r.1 with currentState := .STATE_RESET }, 255,
      [SndEvt.delay 400, SndEvt.stop, SndEvt.play q.2, SndEvt.delay 400] ++ r.2)
  else
    if playOk then
      (p.1, p.2, [SndEvt.delay 400, SndEvt.delay 400, SndEvt.play p.2])
    else
      ({ p.1 with currentState := .STATE_RESET }, 255,
        [SndEvt.delay 400, SndEvt.delay 400, SndEvt.play p.2])

/-- Result of a full `GetKeyPadNumber` call. -/
inductive KeypadOutcome where
  | finished (phone : List Char) (st : SysState) (ret : Nat)
      (entryEv finishEv : List SndEvt)
  | hungUp (st : SysState) (entryEv : List SndEvt)
  | blocked (st : SysState) (entryEv : List SndEvt)
deriving DecidableEq

def KeypadOutcome.phase : KeypadOutcome → PhoneState
  | .finished _ st _ _ _ => st.currentState
  | .hungUp st _ => st.currentState
  | .blocked st _ => st.currentState

def KeypadOutcome.retVal : KeypadOutcome → Nat
  | .finished _ _ r _ _ => r
  | _ => 255

def KeypadOutcome.phoneOf : KeypadOutcome → List Char
  | .finished p _ _ _ _ => p
  | _ => []

def KeypadOutcome.entryEvents : KeypadOutcome → List SndEvt
  | .finished _ _ _ e _ => e
  | .hungUp _ e => e
  | .blocked _ e => e

def KeypadOutcome.finishEvents : KeypadOutcome → List SndEvt
  | .finished _ _ _ _ e => e
  | _ => []

def KeypadOutcome.isFinished : KeypadOutcome → Bool
  | .finished _ _ _ _ _ => true
  | _ => false

/-- `GetKeyPadNumber`: show the entry prompt, look up the keypress
click (file id 2), run the digit-collection loop and then the
completion tail.  A hang-up mid-entry forces `STATE_RESET` (returning
the 255 sentinel).  The LCD bottom line is committed as the number
buffer contents at loop exit. -/
def GetKeyPadNumber (st : SysState) (polls : List (Bool × Option Char)) (playOk : Bool)
    (waitPolls : List (Bool × Bool)) : KeypadOutcome :=
  let st0 := { st with displayTop := "  Enter Number" }
  let p := findTrackNumberByFilename st0 2
  match collectKeys p.2 (List.replicate 5 ' ') (List.replicate 6 ' ') 0 false [] polls with
  | .hungup ev => .hungUp { p.1 with currentState := .STATE_RESET } ev
  | .starved _ disp ev => .blocked { p.1 with displayBottom := String.mk disp } ev
  | .completed phone disp ev =>
    let st2 := { p.1 with displayBottom := String.mk disp }
    let r := finishEntry st2 phone playOk waitPolls
    .finished phone r.1 r.2.1 ev r.2.2

lemma finishEntry_display_indep (st : SysState) (d1 d2 : String) (phone : List Char)
    (playOk : Bool) (waitPolls : List (Bool × Bool)) :
    (finishEntry { st with displayBottom := d1 } phone playOk waitPolls).1.currentState
      = (finishEntry { st with displayBottom := d2 } phone playOk waitPolls).1.currentState ∧
    (finishEntry { st with displayBottom := d1 } phone playOk waitPolls).2
      = (finishEntry { st with displayBottom := d2 } phone playOk waitPolls).2 := by
  cases h : lookupSlot st.audioFiles (convertFilenameToInt phone) with
  | none =>
    cases h4 : lookupSlot st.audioFiles 4 <;>
      simp [finishEntry, findTrackNumberByFilename, h, h4]
  | some slot =>
    by_cases h255 : slot = 255
    · subst h255
      cases h4 : lookupSlot st.audioFiles 4 <;>
        simp [finishEntry, findTrackNumberByFilename, h, h4]
    · cases playOk <;> simp [finishEntry, findTrackNumberByFilename, h, h255]

/-- A single `*` press (off-hook). -/
def starPolls : List (Bool × Option Char) := [(true, some '*')]

/-- Five manual `1` presses (off-hook). -/
def onesPolls : List (Bool × Option Char) := List.replicate 5 (true, some '1')

/-- C6: pressing `*` during digit entry immediately fills the buffer
with the predetermined shortcut "11111" and completes entry; from that
completion point on, the Connecting flow — the lookup of the shortcut
id, the resulting phase, the returned track and the audio command
sequence — is identical to typing `1`,`1`,`1`,`1`,`1` manually.  (The
LCD differs cosmetically: `*` prints "11-111", typed digits fill the
display buffer as "11 111".) -/
theorem C6_star_shortcut_equals_manual (st : SysState) (playOk : Bool)
    (waitPolls : List (Bool × Bool)) :
    (GetKeyPadNumber st starPolls playOk waitPolls).isFinished = true ∧
    (GetKeyPadNumber st onesPolls playOk waitPolls).isFinished = true ∧
    (GetKeyPadNumber st starPolls playOk waitPolls).phoneOf = "11111".toList ∧
    (GetKeyPadNumber st onesPolls playOk waitPolls).phoneOf = "11111".toList ∧
    (GetKeyPadNumber st starPolls playOk waitPolls).phase
      = (GetKeyPadNumber st onesPolls playOk waitPolls).phase ∧
    (GetKeyPadNumber st starPolls playOk waitPolls).retVal
      = (GetKeyPadNumber st onesPolls playOk waitPolls).retVal ∧
    (GetKeyPadNumber st starPolls playOk waitPolls).finishEvents
      = (GetKeyPadNumber st onesPolls playOk waitPolls).finishEvents := by
  have hc1 : collectKeys (findTrackNumberByFilename { st with displayTop := "  Enter Number" } 2).2
      (List.replicate 5 ' ') (List.replicate 6 ' ') 0 false [] starPolls
      = .completed "11111".toList "11-111".toList [SndEvt.stop] := rfl
  have hc2 : collectKeys (findTrackNumberByFilename { st with displayTop := "  Enter Number" } 2).2
      (List.replicate 5 ' ') (List.replicate 6 ' ') 0 false [] onesPolls
      = .completed "11111".toList "11 111".toList
          [SndEvt.stop,
           SndEvt.play (findTrackNumberByFilename { st with displayTop := "  Enter Number" } 2).2,
           SndEvt.play (findTrackNumberByFilename { st with displayTop := "  Enter Number" } 2).2,
           SndEvt.play (findTrackNumberByFilename { st with displayTop := "  Enter Number" } 2).2,
           SndEvt.play (findTrackNumberByFilename { st with displayTop := "  Enter Number" } 2).2,
           SndEvt.play (findTrackNumberByFilename { st with displayTop := "  Enter Number" } 2).2] := rfl
  have hfe := finishEntry_display_indep
    (findTrackNumberByFilename { st with displayTop := "  Enter Number" } 2).1
    (String.mk "11-111".toList) (String.mk "11 111".toList) "11111".toList playOk waitPolls
  simp only [GetKeyPadNumber, hc1, hc2]
  simp only [KeypadOutcome.isFinished, KeypadOutcome.phoneOf, KeypadOutcome.phase,
        KeypadOutcome.retVal, KeypadOutcome.finishEvents]
  refine ⟨trivial, trivial, trivial, trivial, hfe.1, ?_, ?_⟩
  · exact congrArg Prod.fst hfe.2
  · exact congrArg (fun x => x.2) hfe.2

/-- C7 counterexample: a `false` reply to a play issued through
`triggerSoundUART` mid-call (here in the Connecting phase) leaves the
machine exactly where it was — the failure is only logged under
`DEBUG`, so no transition toward `STATE_RESET` happens. -/
theorem C7_counterexample_play_failure :
    (triggerSoundUART { sysOnlyState with currentState := .STATE_CONNECTING } 4 false).1
        = { sysOnlyState with currentState := .STATE_CONNECTING } ∧
    (triggerSoundUART { sysOnlyState with currentState := .STATE_CONNECTING } 4 false).1.currentState
        ≠ .STATE_RESET :=
  ⟨rfl, by decide⟩

/-- C7 (amended): only the final direct `sfx.playTrack` call of
`GetKeyPadNumber` checks the module's reply — on `false` it forces
`STATE_RESET` and returns the 255 sentinel.  Every other play is issued
through `triggerSoundUART`, which ignores a `false` reply completely
(any caller's state is returned unchanged), so those failures do not
fold into the Resetting path. -/
theorem C7_play_failure_handling (st : SysState) (phone : List Char)
    (waitPolls : List (Bool × Bool)) (slot : Nat)
    (h : lookupSlot st.audioFiles (convertFilenameToInt phone) = some slot)
    (h255 : slot ≠ 255) :
    (finishEntry st phone false waitPolls).1.currentState = .STATE_RESET ∧
    (finishEntry st phone false waitPolls).2.1 = 255 ∧
    (∀ (stc : SysState) (n : Nat) (ok : Bool), (triggerSoundUART stc n ok).1 = stc) := by
  refine ⟨?_, ?_, fun stc n ok => rfl⟩ <;>
    simp [finishEntry, findTrackNumberByFilename, h, h255]

/-- A directory holding the four system sounds, the incoming code 12
and the outbound number 11111 (slots are the listing indices 0..5). -/
def demoState : SysState :=
  { currentState := .STATE_KEYPAD_ENTRY, displayTop := "  Enter Number",
    displayBottom := "11-111",
    audioFiles := scanFiles 0 0
      (["1.WAV", "2.WAV", "3.OGG", "4.OGG", "12.OGG", "11111.OGG"].map String.toList) }

theorem C7_play_failure_handling_witness :
    lookupSlot demoState.audioFiles (convertFilenameToInt "11111".toList) = some 5 ∧
    (5 : Nat) ≠ 255 ∧
    ((finishEntry demoState "11111".toList false []).1.currentState = .STATE_RESET ∧
     (finishEntry demoState "11111".toList false []).2.1 = 255 ∧
     (∀ (stc : SysState) (n : Nat) (ok : Bool), (triggerSoundUART stc n ok).1 = stc)) :=
  ⟨by decide, by decide,
    C7_play_failure_handling demoState "11111".toList [] 5 (by decide) (by decide)⟩

/-- `checkForHangupOrEnd`: while the ACT line reports playback, watch
the hook; an on-hook reading stops the audio, forces `STATE_RESET` and
exits reporting a detected hang-up.  A sample is a pair
(stillPlaying reading, hook reading); an exhausted oracle stands for
playback having ended. -/
def checkForHangupOrEnd (st : SysState) : List (Bool × Bool) → SysState × List SndEvt × Bool
  | [] => (st, [], false)
  | (playing, hookOff) :: rest =>
    if playing then
      if hookOff then checkForHangupOrEnd st rest
      else ({ st with currentState := .STATE_RESET }, [SndEvt.stop], true)
    else (st, [], false)

/-- Whether a sample sequence makes `checkForHangupOrEnd` detect a
hang-up (an on-hook reading while playback is still active). -/
def hangupDetected : List (Bool × Bool) → Bool
  | [] => false
  | (playing, hookOff) :: rest =>
    if playing then (if hookOff then hangupDetected rest else true) else false

/-- The completion-jingle wait loop at the end of `dialingPhone`: while
off-hook, re-trigger the jingle whenever playback has stopped.
Returns the trace and whether the loop exited (the hook went on-hook);
an exhausted oracle leaves the loop still waiting. -/
def endWait (j : Nat) : List (Bool × Bool) → List SndEvt × Bool
  | [] => ([], false)
  | (hookOff, playing) :: rest =>
    if hookOff then
      if playing then endWait j rest
      else
        let r := endWait j rest
        (SndEvt.play j :: SndEvt.delay 400 :: r.1, r.2)
    else ([], true)

/-- `dialingPhone`: the outbound call sequence of the Connecting state.
`h0` is the hook at entry, `mid` the (ACT, hook) samples consumed by
`checkForHangupOrEnd`, `h2` the hook re-read after it, `tail` the
(hook, ACT) samples of the final jingle loop.  The completion jingle
(file id 4) is only reached when `h2` reads off-hook. -/
def dialingPhone (st : SysState) (tempNum : Nat) (h0 : Bool)
    (mid : List (Bool × Bool)) (h2 : Bool) (tail : List (Bool × Bool)) :
    SysState × List SndEvt :=
  if !h0 then ({ st with currentState := .STATE_RESET }, [SndEvt.stop])
  else
    let p := findTrackNumberByFilename { st with displayTop := "    Calling" } 3
    let ev1 : List SndEvt :=
      [SndEvt.stop, SndEvt.delay 400, SndEvt.play p.2, SndEvt.delay 1000,
       SndEvt.stop, SndEvt.delay 400]
    let st2 := { p.1 with displayTop := "   Connected" }
    let ev2 : List SndEvt := [SndEvt.play tempNum, SndEvt.delay 400]
    let c := checkForHangupOrEnd st2 mid
    if !h2 then
      ({ c.1 with currentState := .STATE_RESET }, ev1 ++ ev2 ++ c.2.1 ++ [SndEvt.stop])
    else
      let q := findTrackNumberByFilename c.1 4
      let st5 := { q.1 with displayTop := "  Call Complete",
                            displayBottom := "Replace Handset" }
      let w := endWait q.2 tail
      ((if w.2 then { st5 with currentState := .STATE_RESET } else st5),
        ev1 ++ ev2 ++ c.2.1 ++ [SndEvt.play q.2] ++ w.1
          ++ (if w.2 then [SndEvt.delay 400, SndEvt.stop] else []))

/-- The play commands of a trace, in order. -/
def playsOf : List SndEvt → List Nat
  | [] => []
  | SndEvt.play n :: rest => n :: playsOf rest
  | _ :: rest => playsOf rest

/-- Trace scan for the module-protocol spacing rule: after every
`stop`, at least `settle` ms of accumulated `delay` must pass before
the next `play`. -/
def settleOkAux (settle : Nat) : Option Nat → List SndEvt → Bool
  | _, [] => true
  | _, SndEvt.stop :: rest => settleOkAux settle (some 0) rest
  | acc, SndEvt.delay d :: rest => settleOkAux settle (acc.map (· + d)) rest
  | some a, SndEvt.play _ :: rest => decide (settle ≤ a) && settleOkAux settle none rest
  | none, SndEvt.play _ :: rest => settleOkAux settle none rest

/-- Every stop in the trace is separated from the next play by at least
`settle` ms of delay. -/
def settleOk (settle : Nat) (ev : List SndEvt) : Bool :=
  settleOkAux settle none ev

lemma playsOf_append (a b : List SndEvt) :
    playsOf (a ++ b) = playsOf a ++ playsOf b := by
  induction a with
  | nil => rfl
  | cons e rest ih => cases e <;> simp [playsOf, ih]

lemma checkForHangupOrEnd_flag (st : SysState) (mid : List (Bool × Bool)) :
    (checkForHangupOrEnd st mid).2.2 = hangupDetected mid := by
  induction mid generalizing st with
  | nil => rfl
  | cons s rest ih =>
    obtain ⟨playing, hookOff⟩ := s
    cases playing <;> cases hookOff <;> simp [checkForHangupOrEnd, hangupDetected, ih]

lemma checkForHangupOrEnd_events (st : SysState) (mid : List (Bool × Bool)) :
    (checkForHangupOrEnd st mid).2.1
      = (if hangupDetected mid then [SndEvt.stop] else []) := by
  induction mid generalizing st with
  | nil => rfl
  | cons s rest ih =>
    obtain ⟨playing, hookOff⟩ := s
    cases playing <;> cases hookOff <;> simp [checkForHangupOrEnd, hangupDetected, ih]

lemma endWait_settle (j : Nat) (tail : List (Bool × Bool)) (rest : List SndEvt) :
    settleOkAux 400 none ((endWait j tail).1 ++ rest) = settleOkAux 400 none rest := by
  induction tail with
  | nil => rfl
  | cons s t ih =>
    obtain ⟨hookOff, playing⟩ := s
    cases hookOff <;> cases playing <;> simp [endWait, settleOkAux, ih]

/-- C8 counterexample: with the recording playing and the hook read
on-hook, `checkForHangupOrEnd` detects the hang-up (sample
`(true, false)`), stops the audio and forces `STATE_RESET` — yet if the
following post-playback hook read comes back off-hook, `dialingPhone`
continues and plays the call-finished jingle (slot 3 = file id 4) in
the same run, as the final `play 3` of the trace shows. -/
theorem C8_counterexample_jingle_after_detected_hangup :
    hangupDetected [(true, false)] = true ∧
    lookupSlot ({ demoState with currentState := PhoneState.STATE_CONNECTING }).audioFiles 4
      = some 3 ∧
    (dialingPhone { demoState with currentState := PhoneState.STATE_CONNECTING } 5 true
        [(true, false)] true []).2
      = [SndEvt.stop, SndEvt.delay 400, SndEvt.play 2, SndEvt.delay 1000, SndEvt.stop,
         SndEvt.delay 400, SndEvt.play 5, SndEvt.delay 400, SndEvt.stop, SndEvt.play 3] :=
  ⟨by decide, by decide, by decide⟩

/-- C8 (amended): if the hook reads on-hook at the entry check, or at
the post-playback check — which is where both a hang-up detected during
playback (when the handset then stays on-hook) and a hang-up found at
the natural end of playback land — `dialingPhone` ends in `STATE_RESET`
having issued exactly the ringback and recording plays: the
call-finished jingle is never triggered.  (Per the counterexample, the
jingle can still sound when the hook flickers back off-hook between a
mid-playback detection and the post-playback check.) -/
theorem C8_onhook_resets_without_jingle (st : SysState) (tempNum : Nat)
    (mid : List (Bool × Bool)) (h2 : Bool) (tail : List (Bool × Bool)) :
    ((dialingPhone st tempNum false mid h2 tail).1.currentState = .STATE_RESET ∧
     playsOf (dialingPhone st tempNum false mid h2 tail).2 = []) ∧
    ((dialingPhone st tempNum true mid false tail).1.currentState = .STATE_RESET ∧
     playsOf (dialingPhone st tempNum true mid false tail).2
       = [(findTrackNumberByFilename { st with displayTop := "    Calling" } 3).2, tempNum]) := by
  refine ⟨⟨rfl, rfl⟩, rfl, ?_⟩
  have hc := checkForHangupOrEnd_events
    { (findTrackNumberByFilename { st with displayTop := "    Calling" } 3).1
        with displayTop := "   Connected" } mid
  cases hhd : hangupDetected mid <;>
    simp [dialingPhone, playsOf_append, playsOf, hc, hhd]

/-- C4 counterexample: the very first digit key press stops the dial
tone and immediately triggers the keypress click — `sfx.stop()`
directly followed by a play with no settle delay in between (the
`delay(sfxDelay)` at that spot is commented out in the source), so the
spacing guarantee fails on this call path. -/
theorem C4_counterexample_first_keypress :
    (GetKeyPadNumber demoState [(true, some '1')] true []).entryEvents
      = [SndEvt.stop, SndEvt.play 1] ∧
    settleOk 400 [SndEvt.stop, SndEvt.play 1] = false :=
  ⟨by decide, by decide⟩

/-- C4 (amended): the stop→settle→play spacing holds throughout
`dialingPhone` (on every path, for every oracle, given only that the
hook does not flicker back off-hook after a detected mid-playback
hang-up), but it does not hold in `GetKeyPadNumber`: stopping the dial
tone on the first digit press is immediately followed by the click
play with no settle interval (and likewise the invalid-number path
issues a stop directly followed by the jingle play). -/
theorem C4_stop_settle_spacing (st : SysState) (tempNum : Nat) (h0 h2 : Bool)
    (mid : List (Bool × Bool)) (tail : List (Bool × Bool))
    (hmono : hangupDetected mid = true → h2 = false) :
    settleOk 400 (dialingPhone st tempNum h0 mid h2 tail).2 = true ∧
    settleOk 400 (GetKeyPadNumber demoState [(true, some '1')] true []).entryEvents = false := by
  constructor
  · have hc := checkForHangupOrEnd_events
      { (findTrackNumberByFilename { st with displayTop := "    Calling" } 3).1
          with displayTop := "   Connected" } mid
    cases h0 with
    | false => rfl
    | true =>
      cases h2 with
      | false =>
        cases hhd : hangupDetected mid <;>
          simp [dialingPhone, settleOk, settleOkAux, hc, hhd]
      | true =>
        have hhd : hangupDetected mid = false := by
          cases hd : hangupDetected mid
          · rfl
          · exact absurd (hmono hd) (by simp)
        have hopt : ∀ b : Bool,
            settleOkAux 400 none (if b then [SndEvt.delay 400, SndEvt.stop] else []) = true := by
          intro b
          cases b <;> rfl
        simp [dialingPhone, settleOk, settleOkAux, hc, hhd, endWait_settle, hopt]
  · decide

theorem C4_stop_settle_spacing_witness :
    (hangupDetected [(true, false)] = true → false = false) ∧
    (settleOk 400 (dialingPhone demoState 5 true [(true, false)] false []).2 = true ∧
     settleOk 400 (GetKeyPadNumber demoState [(true, some '1')] true []).entryEvents = false) :=
  ⟨fun _ => rfl,
    C4_stop_settle_spacing demoState 5 true false [(true, false)] [] (fun _ => rfl)⟩

/-- The static locals of `CheckForIncomingCall`:
`lastDebounceTime`, `lastButtonPressed` (`none` for `-1`) and
`buttonStable`. -/
structure FobState where
  lastDebounceTime : Nat
  lastButtonPressed : Option (Fin 4)
  buttonStable : Bool
deriving DecidableEq

/-- Boot values of the statics. -/
def initFob : FobState := ⟨0, none, false⟩

/-- The `for` loop of `CheckForIncomingCall` over the remaining button
indices.  `t` is `millis()` at this poll, `lows i` whether pin `i`
reads LOW (pressed); `debounceDelay = 2`.  A result `some i` models the
early `return i` of a newly stable press. -/
def scanButtons (t : Nat) (lows : Fin 4 → Bool) :
    List (Fin 4) → FobState → FobState × Option (Fin 4)
  | [], s => (s, none)
  | i :: rest, s =>
    if lows i then
      let s1 := if s.lastButtonPressed = some i then s
                else { lastDebounceTime := t, lastButtonPressed := some i,
                       buttonStable := false }
      if 2 < t - s1.lastDebounceTime then
        if s1.buttonStable then scanButtons t lows rest s1
        else ({ s1 with buttonStable := true }, some i)
      else scanButtons t lows rest s1
    else
      if s.lastButtonPressed = some i then
        scanButtons t lows rest { s with lastButtonPressed := none, buttonStable := false }
      else scanButtons t lows rest s

/-- `CheckForIncomingCall`: one poll of the four keyfob pins. -/
def CheckForIncomingCall (t : Nat) (lows : Fin 4 → Bool) (s : FobState) :
    FobState × Option (Fin 4) :=
  scanButtons t lows [0, 1, 2, 3] s

/-- Repeated polling over a timed level trace, collecting the emitted
stable-press events in order. -/
def runCheck (s : FobState) : List (Nat × (Fin 4 → Bool)) → FobState × List (Fin 4)
  | [] => (s, [])
  | (t, lows) :: rest =>
    let p := CheckForIncomingCall t lows s
    let r := runCheck p.1 rest
    (r.1, p.2.toList ++ r.2)

/-- Single-line semantics of one poll when only line `i` can read
low. -/
def pollOne (t : Nat) (lv : Bool) (i : Fin 4) (s : FobState) : FobState × Option (Fin 4) :=
  if lv then
    let s1 := if s.lastButtonPressed = some i then s
              else { lastDebounceTime := t, lastButtonPressed := some i,
                     buttonStable := false }
    if 2 < t - s1.lastDebounceTime then
      if s1.buttonStable then (s1, none)
      else ({ s1 with buttonStable := true }, some i)
    else (s1, none)
  else if s.lastButtonPressed = some i then
    ({ s with lastButtonPressed := none, buttonStable := false }, none)
  else (s, none)

/-- Pin levels where only line `i` is (possibly) low. -/
def liftLow (i : Fin 4) (lv : Bool) : Fin 4 → Bool := fun j => lv && decide (j = i)

lemma check_single (i : Fin 4) (lv : Bool) (t : Nat) (s : FobState)
    (hs : s.lastButtonPressed = none ∨ s.lastButtonPressed = some i) :
    CheckForIncomingCall t (liftLow i lv) s = pollOne t lv i s := by
  fin_cases i <;> rcases hs with h | h <;> cases lv <;>
    simp [CheckForIncomingCall, scanButtons, pollOne, liftLow, h]

/-- A poll trace with line `i` held low at the given times. -/
def heldTrace (i : Fin 4) (ts : List Nat) : List (Nat × (Fin 4 → Bool)) :=
  ts.map (fun t => (t, liftLow i true))

lemma heldTrace_cons (i : Fin 4) (t : Nat) (ts : List Nat) :
    heldTrace i (t :: ts) = (t, liftLow i true) :: heldTrace i ts := rfl

lemma runCheck_cons (s : FobState) (t : Nat) (lows : Fin 4 → Bool)
    (rest : List (Nat × (Fin 4 → Bool))) :
    runCheck s ((t, lows) :: rest)
      = ((runCheck (CheckForIncomingCall t lows s).1 rest).1,
         (CheckForIncomingCall t lows s).2.toList
           ++ (runCheck (CheckForIncomingCall t lows s).1 rest).2) := rfl

lemma runCheck_held_stable (i : Fin 4) (t0 : Nat) (ts : List Nat) :
    runCheck ⟨t0, some i, true⟩ (heldTrace i ts) = (⟨t0, some i, true⟩, []) := by
  induction ts with
  | nil => rfl
  | cons t rest ih =>
    have hp : pollOne t true i ⟨t0, some i, true⟩ = (⟨t0, some i, true⟩, none) := by
      simp [pollOne]
    rw [heldTrace_cons, runCheck_cons, check_single i true t ⟨t0, some i, true⟩ (Or.inr rfl), hp]
    simp [ih]

lemma runCheck_held_unstable (i : Fin 4) (t0 : Nat) (ts : List Nat) :
    (runCheck ⟨t0, some i, false⟩ (heldTrace i ts)).2
      = if ts.any (fun t => decide (2 < t - t0)) then [i] else [] := by
  induction ts with
  | nil => rfl
  | cons t rest ih =>
    by_cases hd : 2 < t - t0
    · have hp : pollOne t true i ⟨t0, some i, false⟩ = (⟨t0, some i, true⟩, some i) := by
        simp [pollOne, hd]
      rw [heldTrace_cons, runCheck_cons,
        check_single i true t ⟨t0, some i, false⟩ (Or.inr rfl), hp]
      simp [runCheck_held_stable, List.any_cons, hd]
    · have hp : pollOne t true i ⟨t0, some i, false⟩ = (⟨t0, some i, false⟩, none) := by
        simp [pollOne, hd]
      rw [heldTrace_cons, runCheck_cons,
        check_single i true t ⟨t0, some i, false⟩ (Or.inr rfl), hp]
      simp only [Option.toList_none, List.nil_append, List.any_cons]
      rw [ih]
      simp [hd]

lemma runCheck_held (i : Fin 4) (t0 : Nat) (ts : List Nat) :
    (runCheck initFob (heldTrace i (t0 :: ts))).2
      = if ts.any (fun t => decide (2 < t - t0)) then [i] else [] := by
  have h0 : pollOne t0 true i initFob = (⟨t0, some i, false⟩, none) := by
    simp [pollOne, initFob]
  rw [heldTrace_cons, runCheck_cons, check_single i true t0 initFob (Or.inl rfl), h0]
  simp only [Option.toList_none, List.nil_append]
  exact runCheck_held_unstable i t0 ts

/-- A poll trace where line `i` follows the given (time, low) samples
and the other lines stay high. -/
def flickerTrace (i : Fin 4) (ps : List (Nat × Bool)) : List (Nat × (Fin 4 → Bool)) :=
  ps.map (fun p => (p.1, liftLow i p.2))

lemma flickerTrace_cons (i : Fin 4) (p : Nat × Bool) (ps : List (Nat × Bool)) :
    flickerTrace i (p :: ps) = (p.1, liftLow i p.2) :: flickerTrace i ps := rfl

/-- Every low run of the sample list stays within the debounce
interval, measured from the first poll of the run (the argument carries
the current run start). -/
def shortRuns : Option Nat → List (Nat × Bool) → Bool
  | _, [] => true
  | none, (_, false) :: r => shortRuns none r
  | none, (t, true) :: r => shortRuns (some t) r
  | some t0, (t, true) :: r => decide (t - t0 ≤ 2) && shortRuns (some t0) r
  | some _, (_, false) :: r => shortRuns none r

lemma runCheck_flicker_aux (i : Fin 4) (ps : List (Nat × Bool)) :
    ∀ (acc : Option Nat) (ts0 : Nat), shortRuns acc ps = true →
      (runCheck (match acc with
                 | none => (⟨ts0, none, false⟩ : FobState)
                 | some t0 => ⟨t0, some i, false⟩) (flickerTrace i ps)).2 = [] := by
  induction ps with
  | nil =>
    intro acc ts0 _
    cases acc <;> rfl
  | cons p r ih =>
    obtain ⟨t, b⟩ := p
    intro acc ts0 hsr
    cases acc with
    | none =>
      cases b with
      | false =>
        have hp : pollOne t false i ⟨ts0, none, false⟩ = (⟨ts0, none, false⟩, none) := by
          simp [pollOne]
        have hsr2 : shortRuns none r = true := by simpa [shortRuns] using hsr
        rw [flickerTrace_cons, runCheck_cons,
          check_single i false t ⟨ts0, none, false⟩ (Or.inl rfl), hp]
        simpa using ih none ts0 hsr2
      | true =>
        have hp : pollOne t true i ⟨ts0, none, false⟩ = (⟨t, some i, false⟩, none) := by
          simp [pollOne]
        have hsr2 : shortRuns (some t) r = true := by simpa [shortRuns] using hsr
        rw [flickerTrace_cons, runCheck_cons,
          check_single i true t ⟨ts0, none, false⟩ (Or.inl rfl), hp]
        simpa using ih (some t) ts0 hsr2
    | some t0 =>
      cases b with
      | true =>
        have hle : (t - t0 ≤ 2 ∧ shortRuns (some t0) r = true) := by
          simpa [shortRuns] using hsr
        have hnd : ¬ 2 < t - t0 := by omega
        have hp : pollOne t true i ⟨t0, some i, false⟩ = (⟨t0, some i, false⟩, none) := by
          simp [pollOne, hnd]
        rw [flickerTrace_cons, runCheck_cons,
          check_single i true t ⟨t0, some i, false⟩ (Or.inr rfl), hp]
        simpa using ih (some t0) ts0 hle.2
      | false =>
        have hp : pollOne t false i ⟨t0, some i, false⟩ = (⟨t0, none, false⟩, none) := by
          simp [pollOne]
        have hsr2 : shortRuns none r = true := by simpa [shortRuns] using hsr
        rw [flickerTrace_cons, runCheck_cons,
          check_single i false t ⟨t0, some i, false⟩ (Or.inr rfl), hp]
        simpa using ih none t0 hsr2

/-- C9: from the boot state, (a) holding a line low emits exactly one
stable-press event over the whole held run — and only when some poll
arrives more than the 2 ms debounce interval after the run's first
poll — with none again until release (edge-triggered); (b) any level
flicker whose low runs each stay within the debounce interval emits
zero events. -/
theorem C9_debounce :
    (∀ (i : Fin 4) (t0 : Nat) (ts : List Nat),
      (runCheck initFob (heldTrace i (t0 :: ts))).2
        = if ts.any (fun t => decide (2 < t - t0)) then [i] else []) ∧
    (∀ (i : Fin 4) (ps : List (Nat × Bool)), shortRuns none ps = true →
      (runCheck initFob (flickerTrace i ps)).2 = []) := by
  constructor
  · exact runCheck_held
  · intro i ps h
    exact runCheck_flicker_aux i ps none 0 h

theorem C9_debounce_witness :
    ((runCheck initFob (heldTrace 0 (0 :: [5]))).2
       = if [5].any (fun t => decide (2 < t - 0)) then [0] else []) ∧
    shortRuns none [(0, true), (1, true), (4, false), (5, true)] = true ∧
    (runCheck initFob (flickerTrace 0 [(0, true), (1, true), (4, false), (5, true)])).2 = [] :=
  ⟨C9_debounce.1 0 0 [5], by decide,
    C9_debounce.2 0 [(0, true), (1, true), (4, false), (5, true)] (by decide)⟩
